import Mathlib

/-!
# A verification of the stretto streaming HTTP client

This file gives a shallow embedding, in Lean 4, of the core algorithms of the
stretto repository (an HTTP request client with retry/backoff orchestration and
byte-level streaming parsers), together with theorems settling the frozen
claims C1..C10 about it.

Embedded components (each definition carries a pointer to the source it
translates):

* the retry loop of `src/request.ts` (`request`, `defaultRetryCondition`) and
  the helpers of `src/utilities.ts` (`shouldRetry`, `RETRY_STATUS_CODES`);
* the line splitter `LineProcessor` of `src/core.ts`, modelled *physically*
  (buffer contents, positions, and the `subarray` views it hands out, which
  alias the buffer that `copyWithin` later mutates);
* the ring buffer of `src/lib/ringBuffer.ts`;
* the SSE processor of `src/transformers/SSEStreamTransformer.ts`;
* the line-oriented JSON stream transformer of
  `src/transformers/JSONStreamTransformer.ts` (the `RingBuffer`-backed
  revision with `parseLine`);
* the single-consumption response facade of `src/index.ts` (`consumeBody`).

Conventions: bytes are `Nat` (values < 256 in all inputs of interest); JS
strings reached by `TextDecoder.decode` are modelled as their byte sequences
(`List Nat`), which is faithful for the ASCII tokens the parsers compare
against ("data: ", "[DONE]", "event", "id", ...).  `JSON.parse` success is an
opaque parameter `pOk : List Nat → Bool`; a successfully parsed value is
represented by the byte range it was parsed from.
-/

/-! ## Shared byte-level helpers -/

/-- Byte value of `\n` (0x0A), `LineProcessor.NEWLINE` in `src/core.ts`. -/
def LFB : Nat := 10

/-- Byte value of `\r` (0x0D). -/
def CRB : Nat := 13

/-- Splits a byte sequence at LF bytes: returns the complete (delimiter-free)
lines, in order, and the trailing bytes after the last LF.  This is the common
scanning pattern of `LineProcessor.push` (`src/core.ts`) and
`JSONTransformer.processBuffer` (`src/transformers/JSONStreamTransformer.ts`):
repeatedly find the first `\n`, take the bytes before it as a line, consume
through the `\n`. -/
def splitAtLF : List Nat → List (List Nat) × List Nat
  | [] => ([], [])
  | b :: rest =>
    if b = LFB then
      ([] :: (splitAtLF rest).1, (splitAtLF rest).2)
    else
      match splitAtLF rest with
      | ([], r) => ([], b :: r)
      | (l :: ls, r) => ((b :: l) :: ls, r)

/-- ASCII whitespace trim, the model of JavaScript `String.prototype.trim` on
the ASCII strings that reach it (JS `trim` additionally strips Unicode spaces,
which cannot occur in the byte sequences compared here). -/
def isWSByte (b : Nat) : Bool := b = 9 || b = 10 || b = 11 || b = 12 || b = 13 || b = 32

/-- Model of `jsonString.trim()`. -/
def trimWS (s : List Nat) : List Nat :=
  (s.dropWhile isWSByte).reverse.dropWhile isWSByte |>.reverse

/-- Joins byte strings with a single LF byte, the model of
`dataBufferParts.join("\n")`. -/
def joinLF : List (List Nat) → List Nat
  | [] => []
  | [l] => l
  | l :: ls => l ++ LFB :: joinLF ls

/-! ## The retry loop of `src/request.ts`

The `request` function loops `attempt` from `0` to `retries` (inclusive).  Its
interaction with the outside world in one attempt is abstracted by an oracle:

* `preAborted a` — the user signal was observed aborted before the fetch of
  attempt `a` fired (the `options.signal?.aborted` check at the top of the
  loop, or the user signal interrupting the backoff `sleep`); both paths
  reject with the abort error;
* `oracle a` — how `await fetch(...)` of attempt `a` ends:
  `success status` (a response), `timeout` (the per-attempt timer called
  `controller.abort(new DOMException('Request timed out', 'TimeoutError'))`
  and fetch rejected; the internal controller's `signal.reason` is then a
  `DOMException`), `userAbort` (the user signal fired during the fetch, so
  `options.signal.aborted` is true in the catch), or `netError` (a
  transport-level failure; the internal controller was never aborted, so its
  `signal.reason` is `undefined`, which is not a `DOMException`).

The catch block of `request` is
`if (options.signal?.aborted || controller.signal.reason instanceof DOMException) throw lastError;`
so `userAbort` rethrows (first disjunct), `timeout` rethrows (second
disjunct), and `netError` records `lastError` and falls through to the next
iteration. -/

/-- Outcome of the `fetch` of one attempt, see the section comment. -/
inductive FetchOutcome
  | success (status : Nat)
  | timeout
  | userAbort
  | netError
deriving DecidableEq, Repr

/-- Error values `request` can reject with. -/
inductive ReqError
  | timeoutErr
  | abortErr
  | netErr
  | exhausted
deriving DecidableEq, Repr

/-- Result of `request`: how it ended, and how many transport attempts were
made. -/
structure ReqResult where
  result : Except ReqError Nat
  attempts : Nat
deriving Repr

/-- One pass of the `for (let attempt = 0; attempt < retries + 1; attempt++)`
loop of `request` (`src/request.ts`, lines 30–69), at attempt index `a` with
`rem` iterations left (`a + rem = retries + 1`) and recorded `lastError`.
`retryOn st` models `retryOn(response, options)` on a response with status
`st`. -/
def reqGo (retryOn : Nat → Bool) (preAborted : Nat → Bool)
    (oracle : Nat → FetchOutcome) (retries : Nat) :
    Nat → Nat → Option ReqError → ReqResult
  | _, 0, le => ⟨.error (le.getD .exhausted), retries + 1⟩
  | a, rem + 1, le =>
    if preAborted a then ⟨.error .abortErr, a⟩
    else
      match oracle a with
      | .success st =>
        if decide (a < retries) && retryOn st then
          reqGo retryOn preAborted oracle retries (a + 1) rem le
        else ⟨.ok st, a + 1⟩
      | .timeout => ⟨.error .timeoutErr, a + 1⟩
      | .userAbort => ⟨.error .abortErr, a + 1⟩
      | .netError => reqGo retryOn preAborted oracle retries (a + 1) rem (some .netErr)

/-- Model of `request(url, options)` of `src/request.ts`: run the attempt loop
from attempt 0 with `retries + 1` iterations available and no recorded error. -/
def runRequest (retries : Nat) (retryOn : Nat → Bool) (preAborted : Nat → Bool)
    (oracle : Nat → FetchOutcome) : ReqResult :=
  reqGo retryOn preAborted oracle retries 0 (retries + 1) none

/-- A response as far as the retry predicates inspect it. -/
structure Resp where
  status : Nat
deriving DecidableEq, Repr

/-- Model of `defaultRetryCondition` (`src/request.ts`, line 6):
`(res) => res.status >= 500 && res.status < 600`. -/
def defaultRetryCondition (res : Resp) : Bool :=
  decide (500 ≤ res.status) && decide (res.status < 600)

/-- JavaScript error values as far as `shouldRetry` (`src/utilities.ts`)
inspects them: a `DOMException` with a name, a `TypeError` with a message, or
any other error. -/
inductive JSErr
  | domExc (name : String) (msg : String)
  | typeErr (msg : String)
  | plainErr (msg : String)
deriving DecidableEq, Repr

/-- Model of `error instanceof DOMException && error.name === ABORT_ERROR_NAME`. -/
def isAbortExc : JSErr → Bool
  | .domExc n _ => n = "AbortError"
  | _ => false

/-- Model of `error instanceof TypeError && error.message === "Failed to fetch"`. -/
def isFailedFetch : JSErr → Bool
  | .typeErr m => m = "Failed to fetch"
  | _ => false

/-- Model of `RETRY_STATUS_CODES` (`src/utilities.ts`, lines 9–16). -/
def RETRY_STATUS_CODES : List Nat := [408, 429, 500, 502, 503, 504]

/-- Model of `shouldRetry(error, response)` (`src/utilities.ts`, lines 57–75):
never retry `AbortError` `DOMException`s; retry when the response status is in
`RETRY_STATUS_CODES`; retry the transient `Failed to fetch` `TypeError`;
otherwise do not retry. -/
def shouldRetry (e : JSErr) (r : Option Resp) : Bool :=
  if isAbortExc e then false
  else if (match r with
           | some rr => RETRY_STATUS_CODES.contains rr.status
           | none => false) then true
  else if isFailedFetch e then true
  else false

/-! ## The ring buffer of `src/lib/ringBuffer.ts`

The buffer is modelled physically: `data` is the byte content of the backing
`Uint8Array` (its length is the allocated `size`), and `writePos`, `readPos`
and `occupied` are the cursor fields.  The constructor rounds the requested
size up to a power of two so that `index & (size - 1)` is a fast modulo; since
`size` is a power of two, that masking equals `index % size`, which is how the
arithmetic is written here. -/

/-- State of a `RingBuffer` instance. -/
structure RingBuffer where
  data : List Nat
  writePos : Nat
  readPos : Nat
  occupied : Nat
deriving DecidableEq, Repr

/-- Physical size of the backing array, `get size()` in the source. -/
def RingBuffer.size (rb : RingBuffer) : Nat := rb.data.length

/-- Free space, `get available()` in the source: `size - occupied`. -/
def RingBuffer.available (rb : RingBuffer) : Nat := rb.size - rb.occupied

/-- Ceiling of the base-2 logarithm, computed by the recurrence
`ceil(log2 n) = 1 + ceil(log2(ceil(n / 2)))` with enough fuel; the model of
`Math.ceil(Math.log2(size))` on the integer sizes the constructor receives. -/
def clog2Fuel : Nat → Nat → Nat
  | 0, _ => 0
  | fuel + 1, n => if n ≤ 1 then 0 else 1 + clog2Fuel fuel ((n + 1) / 2)

/-- Model of the constructor: `actualSize = 2 ** ceil(log2(size))`, zero-filled
backing array, cursors at zero. -/
def mkRingBuffer (requested : Nat) : RingBuffer :=
  ⟨List.replicate (2 ^ clog2Fuel requested requested) 0, 0, 0, 0⟩

/-- Overwrites `buf` starting at position `pos` with the bytes of `xs`
(`this.buffer.set(xs, pos)` for an in-range write). -/
def listSetAt (buf : List Nat) (pos : Nat) (xs : List Nat) : List Nat :=
  buf.take pos ++ xs ++ buf.drop (pos + xs.length)

/-- The data copy inside an accepted `RingBuffer.write` (lines 59–69): the
first part of the chunk — `firstPartLength = min(chunk.length, size -
writePos)` bytes, up to the physical end of the buffer — lands at `writePos`;
any remainder wraps around to position 0. -/
def rbWriteData (rb : RingBuffer) (chunk : List Nat) : List Nat :=
  if chunk.length - min chunk.length (rb.size - rb.writePos) > 0 then
    listSetAt
      (listSetAt rb.data rb.writePos
        (chunk.take (min chunk.length (rb.size - rb.writePos))))
      0 (chunk.drop (min chunk.length (rb.size - rb.writePos)))
  else
    listSetAt rb.data rb.writePos
      (chunk.take (min chunk.length (rb.size - rb.writePos)))

/-- Model of `RingBuffer.write` (`src/lib/ringBuffer.ts`, lines 54–74): if the
chunk does not fit in the available space, return `false` and leave the buffer
untouched; otherwise copy the chunk in (see `rbWriteData`), advance `writePos`
modulo `size` and grow `occupied`. -/
def RingBuffer.write (rb : RingBuffer) (chunk : List Nat) : RingBuffer × Bool :=
  if chunk.length > rb.available then (rb, false)
  else
    (⟨rbWriteData rb chunk, (rb.writePos + chunk.length) % rb.size, rb.readPos,
      rb.occupied + chunk.length⟩, true)

/-- Model of `RingBuffer.consume` (`src/lib/ringBuffer.ts`, lines 114–121):
consuming more than `occupied` throws; otherwise the read cursor advances
modulo `size` and `occupied` shrinks. -/
def RingBuffer.consume (rb : RingBuffer) (length : Nat) : Except String RingBuffer :=
  if length > rb.occupied then .error "Cannot consume more than occupied space"
  else .ok ⟨rb.data, rb.writePos, (rb.readPos + length) % rb.size, rb.occupied - length⟩

/-! ## The line splitter `LineProcessor` of `src/core.ts`

`LineProcessor.push` (lines 23–56) is modelled physically because what it
returns are `Uint8Array` *views* (`this.buffer.subarray(lineStart, lineEnd)`)
into the very buffer that the same call then compacts in place with
`this.buffer.copyWithin(0, lineStart, this.position)`.  The caller in
`fetchAndParseStream` (`src/core.ts`, lines 137–141) reads those views only
after `push` has returned, i.e. after the compaction.  The model therefore
keeps the buffer contents (`buf`, zero-filled like a fresh `Uint8Array`) and
returns the emitted lines as index ranges; `lpObservedPush` reads each range
from the buffer as it is after the push, exactly when the caller decodes the
views. -/

/-- State of a `LineProcessor`: physical buffer contents and `position`. -/
structure LP where
  buf : List Nat
  pos : Nat
deriving DecidableEq, Repr

/-- Model of `new LineProcessor(bufferSize)`. -/
def lpNew (bufferSize : Nat) : LP := ⟨List.replicate bufferSize 0, 0⟩

/-- The newline scan of `LineProcessor.push` (lines 40–47): walk `i` upward
while `fuel` lasts (the caller passes `fuel = len - i` so the walk covers
`[i, len)`), record a range `(lineStart, lineEnd)` at each LF byte, where an
immediately preceding CR is excluded, and return the final `lineStart`. -/
def lpScan (buf : List Nat) : Nat → Nat → Nat → List (Nat × Nat) × Nat
  | 0, _, lineStart => ([], lineStart)
  | fuel + 1, i, lineStart =>
    if buf.getD i 0 = LFB then
      let lineEnd := if 0 < i ∧ buf.getD (i - 1) 0 = CRB then i - 1 else i
      let rs := lpScan buf fuel (i + 1) (i + 1)
      ((lineStart, lineEnd) :: rs.1, rs.2)
    else lpScan buf fuel (i + 1) lineStart

/-- Model of `LineProcessor.push(chunk)` (lines 23–56): grow the buffer if
needed (`newSize = max(position + chunk.length, 2 * buffer.length)`, old
content copied, rest zero-filled like a fresh `Uint8Array`), write the chunk
at `position`, scan for newlines collecting the ranges of the emitted
`subarray` views, then — when any line was found — `copyWithin(0, lineStart,
position)` shifts the remaining bytes to the front and shrinks `position`. -/
def lpPush (lp : LP) (chunk : List Nat) : LP × List (Nat × Nat) :=
  let needed := lp.pos + chunk.length
  let buf0 :=
    if needed > lp.buf.length then
      let newSize := max needed (lp.buf.length * 2)
      lp.buf.take lp.pos ++ List.replicate (newSize - lp.pos) 0
    else lp.buf
  let buf1 := listSetAt buf0 lp.pos chunk
  let scanned := lpScan buf1 needed 0 0
  let lineStart := scanned.2
  if 0 < lineStart then
    let moved := (buf1.drop lineStart).take (needed - lineStart)
    (⟨moved ++ buf1.drop moved.length, needed - lineStart⟩, scanned.1)
  else
    (⟨buf1, needed⟩, scanned.1)

/-- What the caller of `push` actually observes: each returned view, decoded
after `push` has returned — that is, each recorded range read from the buffer
in its post-compaction state. -/
def lpObservedPush (lp : LP) (chunk : List Nat) : LP × List (List Nat) :=
  let r := lpPush lp chunk
  (r.1, r.2.map fun q => ((r.1.buf).drop q.1).take (q.2 - q.1))

/-- Model of `LineProcessor.flush` (lines 59–63): the remaining
`buffer.subarray(0, position)`, or nothing when the buffer is empty. -/
def lpFlush (lp : LP) : Option (List Nat) :=
  if lp.pos = 0 then none else some (lp.buf.take lp.pos)

/-- Drives a `LineProcessor` over a sequence of delivered chunks exactly as
`fetchAndParseStream` does: push each chunk, observe the returned lines, and
observe the flush at end of stream. -/
def lpRun (bufferSize : Nat) (chunks : List (List Nat)) :
    List (List Nat) × Option (List Nat) :=
  let final := chunks.foldl
    (fun (acc : LP × List (List Nat)) chunk =>
      let r := lpObservedPush acc.1 chunk
      (r.1, acc.2 ++ r.2))
    (lpNew bufferSize, [])
  (final.2, lpFlush final.1)

/-! ## The single-consumption response facade of `src/index.ts`

`stretto` (`src/index.ts`, lines 65–125) wraps the final response in an object
whose every body-consuming member first calls `consumeBody` (lines 70–74):
a shared `bodyConsumed` flag is tested — throwing
`'Response body has already been consumed.'` when already set — and then set.
The async iterator throws `'Cannot iterate on this response.'` when the
`stream` option is false, and otherwise also goes through `consumeBody`. -/

/-- The body-consuming members of the streamable response. -/
inductive BodyOp
  | text
  | json
  | blob
  | arrayBuffer
  | formData
  | body
  | iterate
deriving DecidableEq, Repr

/-- Model of `consumeBody` (`src/index.ts`, lines 70–74): acting on the
`bodyConsumed` flag, it either throws or sets the flag. -/
def consumeBody : Bool → Except String Bool
  | true => .error "Response body has already been consumed."
  | false => .ok true

/-- One member invocation on the streamable response: the async iterator is
gated on the `stream` option; every other member consumes the body directly. -/
def stepBodyOp (stream : Bool) (bodyConsumed : Bool) (op : BodyOp) :
    Except String Bool :=
  match op with
  | .iterate =>
    if stream then consumeBody bodyConsumed
    else .error "Cannot iterate on this response."
  | _ => consumeBody bodyConsumed

/-- Runs a sequence of member invocations, recording each outcome — success,
or the message thrown; a throw leaves the flag unchanged. -/
def runBodyOps (stream : Bool) : Bool → List BodyOp → List (Except String Unit)
  | _, [] => []
  | bodyConsumed, op :: rest =>
    match stepBodyOp stream bodyConsumed op with
    | .ok c => .ok () :: runBodyOps stream c rest
    | .error e => .error e :: runBodyOps stream bodyConsumed rest

/-! ## The JSON stream transformer of `src/transformers/JSONStreamTransformer.ts`

This models the `RingBuffer`-backed revision (the one with `parseLine`,
lines 21–129).  The ring buffer is represented by its logical content, the
queue of written-but-unconsumed bytes: `write` appends (failing when the chunk
exceeds the available space `cap - buffered`, where `cap` is the physical size
the constructor allocated), `peekByte i` reads index `i`, `getView 0 n` reads
the first `n` bytes, and `consume n` drops the first `n` bytes — so a
`List Nat` carrying the queue is an exact model of the sequence of observable
ring operations the transformer performs.

`controller` is a `TransformStreamDefaultController`: `enqueue` appends to the
readable side, `terminate()` closes the readable side and errors the writable
side — after it, `enqueue` throws (modelled by the `errored` flag; no value is
delivered) and the upstream pipe can no longer deliver chunks, so `transform`
and `flush` are not invoked again. -/

/-- A value the JSON transformer emits: the result of `JSON.parse(jsonString)`
(represented by the bytes it was parsed from), or the raw string when
`parseData` is off. -/
inductive JVal
  | parsed (src : List Nat)
  | str (s : List Nat)
deriving DecidableEq, Repr

/-- Observable controller state: emitted values, whether `terminate()` was
called, and whether a failure (buffer overflow via `controller.error`, or an
`enqueue` after termination) errored the stream. -/
structure JCtrl where
  out : List JVal
  term : Bool
  errored : Bool
deriving DecidableEq, Repr

/-- Options of `JSONStreamTransformer`; `dataPfx`/`donePfx` model the
`dataPrefix`/`donePrefix` string options (defaults `"data: "` and `"[DONE]"`),
`cap` the physical ring size obtained from `bufferSize`. -/
structure JOpts where
  dataPfx : List Nat
  donePfx : List Nat
  parseData : Bool
  cap : Nat

/-- Byte spelling of the default `DATA_PREFIX = "data: "`. -/
def dataPfxDefault : List Nat := [100, 97, 116, 97, 58, 32]

/-- Byte spelling of the default `DONE_PREFIX = "[DONE]"`. -/
def donePfxDefault : List Nat := [91, 68, 79, 78, 69, 93]

/-- Model of `controller.enqueue(v)`: after `terminate()` the readable side is
closed and `enqueue` throws (no value is delivered). -/
def jEnqueue (c : JCtrl) (v : JVal) : JCtrl :=
  if c.term then { c with errored := true } else { c with out := c.out ++ [v] }

/-- Model of `JSONTransformer.parseLine` (lines 92–115): skip empty lines;
on a line starting with the data prefix, take the payload after it; terminate
on the sentinel (compared against the *trimmed* payload); otherwise
`try { enqueue(parseData ? JSON.parse(s) : s) } catch { parseData ?
console.error(...) : enqueue(s) }` — a parse failure under `parseData` is
logged, not raised.  `pOk` models `JSON.parse` success. -/
def jParseLine (pOk : List Nat → Bool) (o : JOpts) (c : JCtrl) (line : List Nat) :
    JCtrl :=
  if line.length = 0 then c
  else if o.dataPfx.isPrefixOf line then
    let jsonString := line.drop o.dataPfx.length
    if trimWS jsonString = o.donePfx then { c with term := true }
    else if o.parseData then
      if pOk jsonString then jEnqueue c (.parsed jsonString) else c
    else jEnqueue c (.str jsonString)
  else c

/-- Model of `JSONTransformer.processBuffer` (lines 58–87).  The source loop
repeatedly finds the first `\n` in the ring, hands the bytes before it to
`parseLine`, and consumes through the `\n`; when no `\n` remains it either
stops (keeping the partial line buffered) or — on flush — hands the remainder
to `parseLine` and consumes it.  That loop computes exactly: split the queue
at LFs, fold `parseLine` over the complete lines, and on flush also parse a
nonempty remainder. -/
def jProcessBuffer (pOk : List Nat → Bool) (o : JOpts) (isFlush : Bool)
    (c : JCtrl) (buf : List Nat) : JCtrl × List Nat :=
  let sp := splitAtLF buf
  let c1 := sp.1.foldl (jParseLine pOk o) c
  if isFlush ∧ sp.2 ≠ [] then (jParseLine pOk o c1 sp.2, [])
  else (c1, sp.2)

/-- Model of `JSONTransformer.transform` (lines 36–48) as one step of the
pipe: once the stream is terminated or errored no further chunk reaches the
transformer; a chunk that does not fit the ring's available space errors the
stream (`controller.error(new Error("Buffer overflow. ..."))`); otherwise the
chunk is written and the buffer processed. -/
def jTransform (pOk : List Nat → Bool) (o : JOpts) (s : JCtrl × List Nat)
    (chunk : List Nat) : JCtrl × List Nat :=
  if s.1.term ∨ s.1.errored then s
  else if chunk.length > o.cap - s.2.length then ({ s.1 with errored := true }, s.2)
  else jProcessBuffer pOk o false s.1 (s.2 ++ chunk)

/-- Runs the transformer over a whole stream: deliver the chunks in order,
then — when the stream is still live — run `flush` (lines 50–52), which
processes the buffered remainder with `isFlush = true`. -/
def jRun (pOk : List Nat → Bool) (o : JOpts) (chunks : List (List Nat)) : JCtrl :=
  let s := chunks.foldl (jTransform pOk o) (⟨[], false, false⟩, [])
  if s.1.term ∨ s.1.errored then s.1
  else (jProcessBuffer pOk o true s.1 s.2).1

/-! ## The SSE processor of `src/transformers/SSEStreamTransformer.ts`

`SSEProcessor` keeps three accumulator fields (`dataBufferParts`,
`eventTypeBuffer`, `lastEventIdBuffer`) and a ring buffer of undecoded bytes.
As for the JSON transformer, the ring is modelled by its logical byte queue.
`parseBuffer` (lines 91–133) walks the queue: a `\n`, a `\r\n` pair, or a
lone `\r` ends a line; a nonempty line goes to `processLine`, an empty line
triggers `dispatchEvent`; the bytes after the last line ending stay buffered
(`this.ringBuffer.consume(lineStartPos)`). -/

/-- Accumulator state of `SSEProcessor`: `parts` is `dataBufferParts`,
`etype` is `eventTypeBuffer`, `lastId` is `lastEventIdBuffer`. -/
structure SSEState where
  parts : List (List Nat)
  etype : List Nat
  lastId : List Nat
deriving DecidableEq, Repr

/-- Options of the SSE processor (`parseData`, `metadata`); `cap` is the
physical ring size. -/
structure SOpts where
  parseData : Bool
  metadata : Bool
  cap : Nat

/-- Data payload of a dispatched SSE event: the `JSON.parse` result
(represented by its source bytes) or the plain joined string. -/
inductive SVal
  | parsed (src : List Nat)
  | str (s : List Nat)
deriving DecidableEq, Repr

/-- A dispatched event: with `metadata` the object
`{data, type, lastEventId}`, without it the bare data value. -/
inductive SEvent
  | meta (data : SVal) (etype : List Nat) (lastEventId : List Nat)
  | bare (data : SVal)
deriving DecidableEq, Repr

/-- Accessor for the `lastEventId` property of an emitted event object. -/
def SEvent.lastIdOf : SEvent → Option (List Nat)
  | .meta _ _ i => some i
  | .bare _ => none

/-- Byte spelling of `"event"`. -/
def eventFieldName : List Nat := [101, 118, 101, 110, 116]

/-- Byte spelling of `"data"`. -/
def dataFieldName : List Nat := [100, 97, 116, 97]

/-- Byte spelling of `"id"`. -/
def idFieldName : List Nat := [105, 100]

/-- Byte spelling of `"retry"`. -/
def retryFieldName : List Nat := [114, 101, 116, 114, 121]

/-- Byte spelling of `SSEProcessor.DEFAULT_EVENT_TYPE = "message"`. -/
def defaultEventType : List Nat := [109, 101, 115, 115, 97, 103, 101]

/-- The field decomposition of `SSEProcessor.processLine` (lines 140–164):
`none` for a comment line (first character `:`); otherwise the field name
before the first `:` (the whole line when there is none) and the value after
it, with one leading space stripped. -/
def sseFieldSplit (line : List Nat) : Option (List Nat × List Nat) :=
  if line.head? = some 58 then none
  else
    match line.findIdx? (· = 58) with
    | none => some (line, [])
    | some i =>
      let v := line.drop (i + 1)
      some (line.take i, if v.head? = some 32 then v.drop 1 else v)

/-- Model of `SSEProcessor.processLine` (lines 140–190): dispatch on the field
name; `event:` sets the type buffer, `data:` appends to the data parts, `id:`
sets the last-event-id buffer unless the value contains a NUL byte, `retry:`
and unknown fields leave the state unchanged. -/
def sseProcessLine (st : SSEState) (line : List Nat) : SSEState :=
  match sseFieldSplit line with
  | none => st
  | some fv =>
    if fv.1 = eventFieldName then { st with etype := fv.2 }
    else if fv.1 = dataFieldName then { st with parts := st.parts ++ [fv.2] }
    else if fv.1 = idFieldName then
      if fv.2.contains 0 then st else { st with lastId := fv.2 }
    else st

/-- The `finalStringData` computed by `dispatchEvent` (lines 208–214): the
data parts joined with `\n`, with one trailing LF removed when present. -/
def sseFinalData (parts : List (List Nat)) : List Nat :=
  if (joinLF parts).getLast? = some LFB then (joinLF parts).dropLast
  else joinLF parts

/-- Model of `SSEProcessor.dispatchEvent` (lines 196–240): when the data
buffer is empty — `dataBufferParts.length === 0`, or a single empty string —
only reset; otherwise take `sseFinalData` of the parts, JSON-parse it when
`parseData` is on (keeping the string on failure), build the event (with
`type`/`lastEventId` metadata when `metadata` is on, the bare data value
otherwise, and the empty type replaced by `"message"`), emit it, and reset.
`resetEventBuffers` (lines 245–249) clears `parts` and `etype` and explicitly
preserves `lastId`. -/
def sseDispatchEvent (o : SOpts) (pOk : List Nat → Bool) (st : SSEState) :
    SSEState × List SEvent :=
  if st.parts = [] ∨ st.parts = [[]] then
    ({ st with parts := [], etype := [] }, [])
  else
    let dataValue : SVal :=
      if o.parseData ∧ pOk (sseFinalData st.parts) then .parsed (sseFinalData st.parts)
      else .str (sseFinalData st.parts)
    let ev : SEvent :=
      if o.metadata then
        .meta dataValue (if st.etype = [] then defaultEventType else st.etype) st.lastId
      else .bare dataValue
    ({ st with parts := [], etype := [] }, [ev])

/-- Decides whether a line is an `id:` field line under the decomposition of
`processLine` (so an `id`-named field, comment lines excluded). -/
def sseHasIdField (l : List Nat) : Bool :=
  match sseFieldSplit l with
  | some fv => fv.1 = idFieldName
  | none => false

/-- A line ending inside `parseBuffer`: a nonempty accumulated line goes to
`processLine`, an empty one dispatches. -/
def sseEndLine (o : SOpts) (pOk : List Nat → Bool) (s : SSEState × List SEvent)
    (cur : List Nat) : SSEState × List SEvent :=
  if cur = [] then
    let r := sseDispatchEvent o pOk s.1
    (r.1, s.2 ++ r.2)
  else (sseProcessLine s.1 cur, s.2)

/-- The scanning loop of `SSEProcessor.parseBuffer` (lines 96–129): `cur` is
the line accumulated since the last line ending; `\r\n` is consumed as one
ending, as are a lone `\n` and a lone `\r` (including a `\r` that is the last
buffered byte); whatever follows the last ending is returned as the new
buffered remainder. -/
def sseScan (o : SOpts) (pOk : List Nat → Bool) :
    SSEState × List SEvent → List Nat → List Nat →
    (SSEState × List SEvent) × List Nat
  | s, cur, [] => (s, cur)
  | s, cur, 13 :: 10 :: rest => sseScan o pOk (sseEndLine o pOk s cur) [] rest
  | s, cur, 13 :: rest => sseScan o pOk (sseEndLine o pOk s cur) [] rest
  | s, cur, 10 :: rest => sseScan o pOk (sseEndLine o pOk s cur) [] rest
  | s, cur, b :: rest => sseScan o pOk s (cur ++ [b]) rest

/-- Model of `SSEProcessor.transform` (lines 82–85): `ringBuffer.write(chunk)`
— whose boolean result the source ignores, so an oversized chunk is silently
dropped — followed by `parseBuffer`. -/
def sseTransform (o : SOpts) (pOk : List Nat → Bool)
    (acc : (SSEState × List SEvent) × List Nat) (chunk : List Nat) :
    (SSEState × List SEvent) × List Nat :=
  if chunk.length > o.cap - acc.2.length then acc
  else sseScan o pOk acc.1 [] (acc.2 ++ chunk)

/-- Model of `SSEProcessor.flush` (lines 87–89): the body is empty — "as per
spec: once the end of the file is reached, any pending data must be
discarded". -/
def sseFlushStep (acc : (SSEState × List SEvent) × List Nat) :
    (SSEState × List SEvent) × List Nat := acc

/-- Runs the SSE processor over a whole stream, optionally (`withFlush`)
ending with the `flush` callback, and returns the final accumulator state,
the emitted events, and the buffered remainder. -/
def sseRun (o : SOpts) (pOk : List Nat → Bool) (chunks : List (List Nat))
    (withFlush : Bool) : (SSEState × List SEvent) × List Nat :=
  let r := chunks.foldl (sseTransform o pOk) ((⟨[], [], []⟩, []), [])
  if withFlush then sseFlushStep r else r

/-- A concrete ring-buffer instance (a 4-byte ring with one byte written),
used to evaluate the ring-buffer contract on explicit inputs. -/
def rbW : RingBuffer := ((mkRingBuffer 4).write [7]).1

/-! ## Theorems settling the claims -/

/-! ## Structural lemmas about `splitAtLF` -/

/-- Splitting an extended buffer first yields the lines of the old buffer,
then the lines of the leftover joined with the extension: the incremental
line scan is insensitive to where the buffer was extended. -/
theorem splitAtLF_append (a b : List Nat) :
    splitAtLF (a ++ b) =
      ((splitAtLF a).1 ++ (splitAtLF ((splitAtLF a).2 ++ b)).1,
       (splitAtLF ((splitAtLF a).2 ++ b)).2) := by
  induction a with
  | nil => simp [splitAtLF]
  | cons x a' ih =>
    by_cases hx : x = LFB
    · subst hx
      simp only [List.cons_append, splitAtLF, if_pos rfl]
      simp [ih]
    · rcases h1 : splitAtLF a' with ⟨l1, r1⟩
      cases l1 with
      | nil =>
        simp only [List.cons_append, splitAtLF, if_neg hx, h1]
        rw [h1] at ih
        simp only [List.nil_append] at ih
        simp only [List.append_eq]
        rw [ih]
        simp
      | cons l ls =>
        simp only [List.cons_append, splitAtLF, if_neg hx, h1]
        rw [h1] at ih
        simp only [List.cons_append] at ih
        simp only [List.append_eq]
        rw [ih]

/-- A buffer without LF is all leftover. -/
theorem splitAtLF_no_LF (l : List Nat) (h : LFB ∉ l) : splitAtLF l = ([], l) := by
  induction l with
  | nil => rfl
  | cons x l' ih =>
    have hx : x ≠ LFB := fun hc => h (hc ▸ List.mem_cons_self x l')
    have h' : LFB ∉ l' := fun hc => h (List.mem_cons_of_mem _ hc)
    simp only [splitAtLF, if_neg hx, ih h']

/-- One complete LF-terminated line at the front of the buffer splits off
first. -/
theorem splitAtLF_line (l rest : List Nat) (h : LFB ∉ l) :
    splitAtLF (l ++ LFB :: rest) = (l :: (splitAtLF rest).1, (splitAtLF rest).2) := by
  induction l with
  | nil => simp [splitAtLF]
  | cons x l' ih =>
    have hx : x ≠ LFB := fun hc => h (hc ▸ List.mem_cons_self x l')
    have h' : LFB ∉ l' := fun hc => h (List.mem_cons_of_mem _ hc)
    simp only [List.cons_append, splitAtLF, if_neg hx]
    simp only [List.append_eq]
    rw [ih h']

/-- The split reconstructs the buffer: every byte is either in an emitted line
(followed by its LF) or in the leftover. -/
theorem splitAtLF_join (a : List Nat) :
    ((splitAtLF a).1.map (fun l => l ++ [LFB])).flatten ++ (splitAtLF a).2 = a := by
  induction a with
  | nil => rfl
  | cons x a' ih =>
    by_cases hx : x = LFB
    · subst hx
      simp only [splitAtLF, if_pos rfl, List.map_cons, List.flatten_cons]
      simpa using ih
    · rcases h1 : splitAtLF a' with ⟨l1, r1⟩
      rw [h1] at ih
      cases l1 with
      | nil =>
        simp only [splitAtLF, if_neg hx, h1]
        simpa using ih
      | cons l ls =>
        simp only [splitAtLF, if_neg hx, h1]
        simp only [List.map_cons, List.flatten_cons, List.cons_append, List.append_assoc] at ih ⊢
        simpa using ih

/-- The leftover contains no LF byte. -/
theorem splitAtLF_rest_no_LF (a : List Nat) : LFB ∉ (splitAtLF a).2 := by
  induction a with
  | nil => simp [splitAtLF]
  | cons x a' ih =>
    by_cases hx : x = LFB
    · subst hx
      simpa [splitAtLF] using ih
    · rcases h1 : splitAtLF a' with ⟨l1, r1⟩
      rw [h1] at ih
      cases l1 with
      | nil =>
        simp only [splitAtLF, if_neg hx, h1]
        simp only [List.mem_cons, not_or]
        exact ⟨fun hc => hx hc.symm, ih⟩
      | cons l ls =>
        simpa [splitAtLF, if_neg hx, h1] using ih

/-- A buffer that is empty or ends in LF has no leftover. -/
theorem splitAtLF_ends_LF (a : List Nat) (h : a = [] ∨ a.getLast? = some LFB) :
    (splitAtLF a).2 = [] := by
  rcases h with h | h
  · subst h; rfl
  by_contra hne
  rcases hr : (splitAtLF a).2 with _ | ⟨y, ys⟩
  · exact hne hr
  have hj := splitAtLF_join a
  rw [hr] at hj
  have hlast : a.getLast? = (y :: ys).getLast? := by
    rw [← hj, List.getLast?_append_of_ne_nil]
    simp
  have hmem : LFB ∈ y :: ys := by
    have hsome : LFB ∈ (y :: ys).getLast? := by
      rw [← hlast]
      exact Option.mem_def.mpr h
    obtain ⟨hne2, heq⟩ := List.mem_getLast?_eq_getLast hsome
    rw [heq]
    exact List.getLast_mem hne2
  have := splitAtLF_rest_no_LF a
  rw [hr] at this
  exact this hmem

/-! ## The retry loop: lemmas and claims C1, C2 -/

/-- Attempt-loop unrolling: if attempts `a, a+1, ..., a+k-1` all fail with
network errors and attempt `a+k` times out (with iterations remaining and the
user signal never aborted), the loop ends at attempt `a+k` with the timeout
error rethrown. -/
theorem reqGo_timeout (retryOn : Nat → Bool) (oracle : Nat → FetchOutcome)
    (retries : Nat) :
    ∀ (k a rem : Nat) (le : Option ReqError), k < rem →
      (∀ j, j < k → oracle (a + j) = .netError) → oracle (a + k) = .timeout →
      reqGo retryOn (fun _ => false) oracle retries a rem le =
        ⟨.error .timeoutErr, a + k + 1⟩ := by
  intro k
  induction k with
  | zero =>
    intro a rem le hrem hnet ht
    match rem, hrem with
    | m + 1, _ =>
      rw [show a + 0 = a from rfl] at ht
      simp [reqGo, ht]
  | succ k ih =>
    intro a rem le hrem hnet ht
    match rem, hrem with
    | m + 1, hrem =>
      have hnet0 : oracle a = .netError := by
        have := hnet 0 (Nat.succ_pos k)
        simpa using this
      simp only [reqGo, hnet0]
      have hrec := ih (a + 1) m (some .netErr) (by omega)
        (fun j hj => by
          have := hnet (j + 1) (by omega)
          simpa [Nat.add_assoc, Nat.add_comm 1 j] using this)
        (by
          have : a + 1 + k = a + (k + 1) := by omega
          rw [this]
          exact ht)
      simp only [Bool.false_eq_true, if_false, hrec]
      congr 1
      omega

/-- C1 (amended): a per-attempt timeout is terminal immediately.  If attempts
`0..k-1` fail with retryable network errors and the fetch of attempt `k ≤
retries` rejects because the per-attempt timer fired, `request` rethrows the
timeout error after `k + 1` attempts — it does not proceed to the next
attempt, no matter how many attempts remain and regardless of the retry
predicate.  (The catch block rethrows whenever the internal controller's
abort reason is a `DOMException`, and the timeout reason is one.) -/
theorem request_timeout_is_terminal (retries k : Nat) (retryOn : Nat → Bool)
    (oracle : Nat → FetchOutcome) (hk : k ≤ retries)
    (hnet : ∀ j, j < k → oracle j = .netError) (ht : oracle k = .timeout) :
    runRequest retries retryOn (fun _ => false) oracle =
      ⟨.error .timeoutErr, k + 1⟩ := by
  unfold runRequest
  have := reqGo_timeout retryOn oracle retries k 0 (retries + 1) none
    (by omega) (fun j hj => by simpa using hnet j hj) (by simpa using ht)
  simpa using this

/-- Witness for `request_timeout_is_terminal`: `retries = 2`, attempt 0 is a
network error, attempt 1 times out; the run ends with the timeout error after
2 of the 3 available attempts. -/
theorem request_timeout_is_terminal_witness :
    1 ≤ 2 ∧
      runRequest 2 (fun st => defaultRetryCondition ⟨st⟩) (fun _ => false)
          (fun a => if a = 0 then .netError else .timeout) =
        ⟨.error .timeoutErr, 2⟩ :=
  ⟨by omega,
    request_timeout_is_terminal 2 1 (fun st => defaultRetryCondition ⟨st⟩)
      (fun a => if a = 0 then .netError else .timeout) (by omega)
      (fun j hj => by
        have hj0 : j = 0 := by omega
        subst hj0
        rfl) (by rfl)⟩

/-- C1 (counterexample): with `retries = 1` — one attempt remaining after the
first — a timeout on attempt 0 makes `request` reject immediately with the
timeout error after a single transport attempt, instead of recording the
failure and proceeding to attempt 1 as the claim states. -/
theorem request_timeout_counterexample :
    runRequest 1 (fun _ => true) (fun _ => false) (fun _ => .timeout) =
      ⟨.error .timeoutErr, 1⟩ := rfl

/-- C2: with `retries = 2` and a transport returning HTTP 500 on every
attempt (retry-worthy under `defaultRetryCondition`), `request` performs
exactly 3 transport attempts — but then *returns the last 500 response
normally* (`return response` runs because `attempt < retries` fails on the
final attempt), rather than raising an error reflecting status 500 as the
claim, the spec (P5), and the repository's own tests
(`expect(stretto('https://httpbin.org/status/500')).rejects.toThrow(/500/)`
in `tests/index.test.ts`) demand. -/
theorem request_exhaustion_returns_last_response :
    runRequest 2 (fun st => defaultRetryCondition ⟨st⟩) (fun _ => false)
        (fun _ => .success 500) =
      ⟨.ok 500, 3⟩ := rfl

/-! ## The retry predicates: claim C3 -/

/-- C3 (counterexample): the default retry predicate of `request`
(`defaultRetryCondition`) does *not* retry 408 Request Timeout, and the
`shouldRetry` utility does *not* retry every 5xx status (501 is refused), so
neither predicate matches "5xx or 408 or 429" exactly. -/
theorem retry_predicate_counterexample :
    defaultRetryCondition ⟨408⟩ = false ∧
      shouldRetry (.plainErr "boom") (some ⟨501⟩) = false :=
  ⟨rfl, rfl⟩

/-- C3 (amended): `defaultRetryCondition` — the default `retryOn` of
`request` — retries exactly the 5xx statuses (408 and 429 are not retried by
it); the `shouldRetry` utility retries exactly when the error is not an
`AbortError` `DOMException` (user cancellation is never retried) and either
the response status is one of `RETRY_STATUS_CODES = [408, 429, 500, 502,
503, 504]` (not the whole 5xx range) or the error is the transient
`Failed to fetch` `TypeError`. -/
theorem shouldRetry_eq (e : JSErr) (r : Option Resp) :
    shouldRetry e r =
      (!isAbortExc e &&
        ((match r with
          | some rr => RETRY_STATUS_CODES.contains rr.status
          | none => false) || isFailedFetch e)) := by
  unfold shouldRetry
  cases hab : isAbortExc e
  · cases r with
    | none => cases hf : isFailedFetch e <;> simp [hf]
    | some rr =>
      cases hc : RETRY_STATUS_CODES.contains rr.status <;>
        cases hf : isFailedFetch e <;> simp [hc, hf]
  · simp

/-- C3 (amended): `defaultRetryCondition` — the default `retryOn` of
`request` — retries exactly the 5xx statuses (408 and 429 are not retried by
it); the `shouldRetry` utility retries exactly when the error is not an
`AbortError` `DOMException` (user cancellation is never retried) and either
the response status is one of `RETRY_STATUS_CODES = [408, 429, 500, 502,
503, 504]` (not the whole 5xx range) or the error is the transient
`Failed to fetch` `TypeError`. -/
theorem retry_predicates_characterization :
    (∀ res : Resp,
      defaultRetryCondition res = true ↔ 500 ≤ res.status ∧ res.status < 600) ∧
    (defaultRetryCondition ⟨408⟩ = false ∧ defaultRetryCondition ⟨429⟩ = false) ∧
    (∀ (e : JSErr) (r : Option Resp),
      shouldRetry e r = true ↔
        isAbortExc e = false ∧
          ((∃ rr, r = some rr ∧ rr.status ∈ RETRY_STATUS_CODES) ∨
            isFailedFetch e = true)) ∧
    (∀ (msg : String) (r : Option Resp),
      shouldRetry (.domExc "AbortError" msg) r = false) := by
  refine ⟨?_, ⟨rfl, rfl⟩, ?_, ?_⟩
  · intro res
    simp [defaultRetryCondition]
  · intro e r
    rw [shouldRetry_eq]
    cases r with
    | none =>
      simp [Bool.and_eq_true, Bool.or_eq_true, Bool.not_eq_true']
    | some rr =>
      simp only [Bool.and_eq_true, Bool.or_eq_true, Bool.not_eq_true']
      constructor
      · rintro ⟨h1, h2 | h2⟩
        · exact ⟨h1, Or.inl ⟨rr, rfl, List.elem_iff.mp h2⟩⟩
        · exact ⟨h1, Or.inr h2⟩
      · rintro ⟨h1, ⟨rr2, hrr, hmem⟩ | h2⟩
        · cases hrr
          exact ⟨h1, Or.inl (List.elem_iff.mpr hmem)⟩
        · exact ⟨h1, Or.inr h2⟩
  · intro msg r
    simp [shouldRetry, isAbortExc]

/-! ## The line splitter: claim C4 -/

/-- C4: the lines a `LineProcessor` caller observes *do* depend on chunk
boundaries.  `push` returns `subarray` views into its internal buffer, then
compacts the buffer in place with `copyWithin(0, lineStart, position)` before
returning, so when unconsumed bytes remain they overwrite the prefix the
views point at.  Delivering the bytes of `"abc\ndef"` (97 98 99 10 100 101
102) to a `LineProcessor(8)` as one chunk makes the caller read the first
line as `"def"` (100 101 102), while delivering `"abc\n"` then `"def"` makes
it read `"abc"` (97 98 99) — same input bytes, different emitted line. -/
theorem lineProcessor_views_depend_on_chunking :
    lpRun 8 [[97, 98, 99, 10, 100, 101, 102]] =
      ([[100, 101, 102]], some [100, 101, 102]) ∧
    lpRun 8 [[97, 98, 99, 10], [100, 101, 102]] =
      ([[97, 98, 99]], some [100, 101, 102]) :=
  ⟨rfl, rfl⟩

/-! ## Single consumption: claim C5 -/

/-- Once `bodyConsumed` is set every further member invocation throws. -/
theorem runBodyOps_consumed (ops : List BodyOp) :
    runBodyOps true true ops =
      ops.map (fun _ => .error "Response body has already been consumed.") := by
  induction ops with
  | nil => rfl
  | cons op rest ih =>
    cases op <;> simp [runBodyOps, stepBodyOp, consumeBody, ih]

/-- C5: on a streaming response, the first body-consuming invocation — any of
`text`, `json`, `blob`, `arrayBuffer`, `formData`, the `body` getter, or the
start of async iteration — succeeds and locks the body, and every later
consuming invocation, of either path, throws
`'Response body has already been consumed.'`; a second consumption never
returns data. -/
theorem response_single_consumption (op : BodyOp) (ops : List BodyOp) :
    runBodyOps true false (op :: ops) =
      .ok () :: ops.map (fun _ => .error "Response body has already been consumed.") := by
  have h1 : stepBodyOp true false op = .ok true := by
    cases op <;> rfl
  simp [runBodyOps, h1, runBodyOps_consumed]

/-! ## The ring buffer: claim C9 -/

/-- An in-range overwrite preserves the buffer length. -/
theorem listSetAt_length (buf : List Nat) (pos : Nat) (xs : List Nat)
    (h : pos + xs.length ≤ buf.length) :
    (listSetAt buf pos xs).length = buf.length := by
  simp only [listSetAt, List.length_append, List.length_take, List.length_drop]
  omega

/-- An accepted write preserves the physical buffer length. -/
theorem rbWriteData_length (rb : RingBuffer) (chunk : List Nat)
    (h : rb.occupied ≤ rb.size) (hw : rb.writePos ≤ rb.size)
    (hfit : chunk.length ≤ rb.size - rb.occupied) :
    (rbWriteData rb chunk).length = rb.data.length := by
  unfold rbWriteData
  have hmin1 := Nat.min_le_left chunk.length (rb.size - rb.writePos)
  have hmin2 := Nat.min_le_right chunk.length (rb.size - rb.writePos)
  simp only [RingBuffer.size] at hw hmin2 hfit h
  have hd1 : (listSetAt rb.data rb.writePos
      (chunk.take (min chunk.length (rb.size - rb.writePos)))).length
      = rb.data.length := by
    apply listSetAt_length
    simp only [List.length_take, RingBuffer.size]
    have := Nat.min_le_left (min chunk.length (rb.data.length - rb.writePos))
      chunk.length
    have h2 := Nat.min_le_right chunk.length (rb.data.length - rb.writePos)
    omega
  split
  · rw [listSetAt_length]
    · exact hd1
    · simp only [List.length_drop, Nat.zero_add, hd1]
      omega
  · exact hd1

/-- Behaviour of `RingBuffer.write`: an oversized chunk is refused with the
state untouched; an accepted chunk preserves the physical size and grows
`occupied` by the chunk length. -/
theorem rb_write_spec (rb : RingBuffer) (chunk : List Nat)
    (h : rb.occupied ≤ rb.size) (hw : rb.writePos ≤ rb.size) :
    ((rb.write chunk).2 = false ↔ chunk.length > rb.size - rb.occupied) ∧
    ((rb.write chunk).2 = false → (rb.write chunk).1 = rb) ∧
    ((rb.write chunk).1.size = rb.size) ∧
    ((rb.write chunk).2 = true →
      (rb.write chunk).1.occupied = rb.occupied + chunk.length) ∧
    ((rb.write chunk).1.occupied ≤ rb.size) := by
  have havail : rb.available = rb.size - rb.occupied := rfl
  by_cases hov : chunk.length > rb.available
  · have hw_eq : rb.write chunk = (rb, false) := by
      unfold RingBuffer.write
      rw [if_pos hov]
    rw [hw_eq]
    refine ⟨⟨fun _ => havail ▸ hov, fun _ => rfl⟩, fun _ => rfl, rfl, ?_, h⟩
    intro hc
    exact (Bool.false_ne_true hc).elim
  · have hfit : chunk.length ≤ rb.size - rb.occupied := by
      rw [← havail]
      omega
    have hw_eq : rb.write chunk =
        (⟨rbWriteData rb chunk, (rb.writePos + chunk.length) % rb.size,
          rb.readPos, rb.occupied + chunk.length⟩, true) := by
      unfold RingBuffer.write
      rw [if_neg hov]
    rw [hw_eq]
    refine ⟨⟨fun hc => Bool.noConfusion hc, fun hp => absurd hp (by omega)⟩,
      fun hc => Bool.noConfusion hc, ?_, fun _ => rfl, ?_⟩
    · show (rbWriteData rb chunk).length = rb.size
      rw [rbWriteData_length rb chunk h hw hfit]
      rfl
    · show rb.occupied + chunk.length ≤ rb.size
      omega

/-- Behaviour of `RingBuffer.consume`: consuming more than `occupied` throws;
otherwise `occupied` shrinks by exactly the consumed length. -/
theorem rb_consume_spec (rb : RingBuffer) (len : Nat) (h : rb.occupied ≤ rb.size) :
    ((∃ rb2, rb.consume len = .ok rb2) ↔ len ≤ rb.occupied) ∧
    (∀ rb2, rb.consume len = .ok rb2 →
      rb2.occupied = rb.occupied - len ∧ rb2.occupied ≤ rb.size ∧
        rb2.size = rb.size) := by
  by_cases hc : len > rb.occupied
  · simp only [RingBuffer.consume, if_pos hc]
    constructor
    · constructor
      · rintro ⟨rb2, hrb2⟩
        cases hrb2
      · intro hle
        omega
    · intro rb2 hrb2
      cases hrb2
  · simp only [RingBuffer.consume, if_neg hc]
    constructor
    · exact ⟨fun _ => by omega, fun _ => ⟨_, rfl⟩⟩
    · intro rb2 hrb2
      cases hrb2
      refine ⟨rfl, ?_, rfl⟩
      simp only [RingBuffer.size] at h ⊢
      omega

/-- C9: the ring buffer operations preserve `occupied ≤ capacity`.  From any
state with `occupied ≤ size` (and a write cursor inside the buffer),
`write(chunk)` returns `false` and leaves the buffer untouched exactly when
`chunk.length` exceeds `capacity - occupied` — so after any write `occupied ≤
capacity` still holds and the physical size is unchanged — and
`consume(length)` throws rather than consuming exactly when `length >
occupied`, so `occupied` shrinks by `length` and never underflows. -/
theorem ringBuffer_occupancy (rb : RingBuffer) (chunk : List Nat) (len : Nat)
    (h : rb.occupied ≤ rb.size) (hw : rb.writePos ≤ rb.size) :
    ((rb.write chunk).2 = false ↔ chunk.length > rb.size - rb.occupied) ∧
    ((rb.write chunk).2 = false → (rb.write chunk).1 = rb) ∧
    ((rb.write chunk).1.size = rb.size) ∧
    ((rb.write chunk).1.occupied ≤ rb.size) ∧
    ((∃ rb2, rb.consume len = .ok rb2) ↔ len ≤ rb.occupied) ∧
    (∀ rb2, rb.consume len = .ok rb2 →
      rb2.occupied = rb.occupied - len ∧ rb2.occupied ≤ rb.size ∧
        rb2.size = rb.size) := by
  obtain ⟨w1, w2, w3, _, w5⟩ := rb_write_spec rb chunk h hw
  obtain ⟨c1, c2⟩ := rb_consume_spec rb len h
  exact ⟨w1, w2, w3, w5, c1, c2⟩

/-- Witness for `ringBuffer_occupancy`: the concrete ring `rbW` (a 4-byte
ring with one byte written) satisfies the hypotheses, and the conclusions
evaluate at `chunk = [1, 2]`, `len = 1`. -/
theorem ringBuffer_occupancy_witness :
    rbW.occupied ≤ rbW.size ∧ rbW.writePos ≤ rbW.size ∧
      (((rbW.write [1, 2]).2 = false ↔
          ([1, 2] : List Nat).length > rbW.size - rbW.occupied) ∧
        ((rbW.write [1, 2]).2 = false → (rbW.write [1, 2]).1 = rbW) ∧
        ((rbW.write [1, 2]).1.size = rbW.size) ∧
        ((rbW.write [1, 2]).1.occupied ≤ rbW.size) ∧
        ((∃ rb2, rbW.consume 1 = .ok rb2) ↔ 1 ≤ rbW.occupied) ∧
        (∀ rb2, rbW.consume 1 = .ok rb2 →
          rb2.occupied = rbW.occupied - 1 ∧ rb2.occupied ≤ rbW.size ∧
            rb2.size = rbW.size)) :=
  ⟨by decide, by decide, ringBuffer_occupancy rbW [1, 2] 1 (by decide) (by decide)⟩

/-! ## The SSE processor: claims C7, C8, C10 -/

/-- C7 (counterexample): a state whose `pendingDataLines` is the non-empty
list containing exactly one empty string — produced by a lone `data:` line —
is caught by the guard `dataBufferParts.length === 1 && dataBufferParts[0] ===
""`, so processing the empty frame emits *no* event (the buffers are merely
reset), contradicting the claim that a non-empty `pendingDataLines` always
yields exactly one event. -/
theorem sse_dispatch_counterexample :
    sseDispatchEvent ⟨false, true, 64⟩ (fun _ => false) ⟨[[]], [120], [105]⟩ =
      (⟨[], [], [105]⟩, []) := rfl

/-- C7 (amended): processing an empty frame with `pendingDataLines` non-empty
*and different from the single empty string* emits exactly one event: its
data is the pending lines joined with `\n` (JSON-parsed when `parseData` is
on and the parse succeeds, the raw joined string otherwise — a parse failure
is not an error), its type is `pendingEventType`, or `"message"` when that is
empty, and its `lastEventId` is the sticky id; the data and type buffers are
then reset while `lastId` is kept.  When `pendingDataLines` is exactly
`[""]`, the buffers are reset without emitting. -/
theorem sse_dispatch_nonempty (parseData : Bool) (cap : Nat)
    (pOk : List Nat → Bool) (st : SSEState)
    (h1 : st.parts ≠ []) (h2 : st.parts ≠ [[]]) :
    sseDispatchEvent ⟨parseData, true, cap⟩ pOk st =
      ({ st with parts := [], etype := [] },
        [.meta
          (if parseData ∧ pOk (sseFinalData st.parts) then
            .parsed (sseFinalData st.parts)
          else .str (sseFinalData st.parts))
          (if st.etype = [] then defaultEventType else st.etype)
          st.lastId]) := by
  unfold sseDispatchEvent
  rw [if_neg (not_or.mpr ⟨h1, h2⟩)]
  rfl

/-- Witness for `sse_dispatch_nonempty`: the state after
`event: foo` / `data: x` with sticky id `"7"`. -/
theorem sse_dispatch_nonempty_witness :
    (⟨[[120]], [102, 111, 111], [55]⟩ : SSEState).parts ≠ [] ∧
    (⟨[[120]], [102, 111, 111], [55]⟩ : SSEState).parts ≠ [[]] ∧
    sseDispatchEvent ⟨false, true, 64⟩ (fun _ => false)
        ⟨[[120]], [102, 111, 111], [55]⟩ =
      ({ (⟨[[120]], [102, 111, 111], [55]⟩ : SSEState) with
          parts := [], etype := [] },
        [.meta
          (if false ∧ (fun _ => false) (sseFinalData [[120]]) then
            .parsed (sseFinalData [[120]])
          else .str (sseFinalData [[120]]))
          (if ([102, 111, 111] : List Nat) = [] then defaultEventType
           else [102, 111, 111])
          [55]]) :=
  ⟨by decide, by decide,
    sse_dispatch_nonempty false 64 (fun _ => false)
      ⟨[[120]], [102, 111, 111], [55]⟩ (by decide) (by decide)⟩

/-- A line that is not an `id:` field line leaves `lastEventIdBuffer`
untouched. -/
theorem sseProcessLine_lastId (st : SSEState) (l : List Nat)
    (h : sseHasIdField l = false) :
    (sseProcessLine st l).lastId = st.lastId := by
  unfold sseProcessLine
  unfold sseHasIdField at h
  cases hfs : sseFieldSplit l with
  | none => rfl
  | some fv =>
    rw [hfs] at h
    have hid : fv.1 ≠ idFieldName := by simpa using h
    dsimp only
    by_cases he : fv.1 = eventFieldName
    · rw [if_pos he]
    · rw [if_neg he]
      by_cases hd : fv.1 = dataFieldName
      · rw [if_pos hd]
      · rw [if_neg hd, if_neg hid]

/-- A whole block of non-`id:` lines leaves `lastEventIdBuffer` untouched. -/
theorem sseFold_lastId (ls : List (List Nat)) :
    ∀ st : SSEState, (∀ l ∈ ls, sseHasIdField l = false) →
      (ls.foldl sseProcessLine st).lastId = st.lastId := by
  induction ls with
  | nil => intro st _; rfl
  | cons l rest ih =>
    intro st h
    have h0 : sseHasIdField l = false := h l (List.mem_cons_self l rest)
    have hr : ∀ l2 ∈ rest, sseHasIdField l2 = false :=
      fun l2 hl2 => h l2 (List.mem_cons_of_mem l hl2)
    simp only [List.foldl_cons]
    rw [ih (sseProcessLine st l) hr, sseProcessLine_lastId st l h0]

/-- Dispatching never changes `lastEventIdBuffer`. -/
theorem sseDispatch_lastId (o : SOpts) (pOk : List Nat → Bool) (st : SSEState) :
    (sseDispatchEvent o pOk st).1.lastId = st.lastId := by
  unfold sseDispatchEvent
  split <;> rfl

/-- With metadata on, a dispatched event carries the current
`lastEventIdBuffer`. -/
theorem sseDispatch_event_lastId (o : SOpts) (pOk : List Nat → Bool)
    (st : SSEState) (hm : o.metadata = true) :
    ∀ ev ∈ (sseDispatchEvent o pOk st).2, ev.lastIdOf = some st.lastId := by
  unfold sseDispatchEvent
  split
  · intro ev hev
    simp at hev
  · intro ev hev
    simp only [hm, if_true, List.mem_singleton] at hev
    subst hev
    rfl

/-- C8: the last event id is sticky.  Processing an event block (any list of
lines) that contains no `id:` field line leaves `lastEventIdBuffer` at its
previous value; dispatching at the blank-line boundary also leaves it
unchanged (only `pendingDataLines` and `pendingEventType` reset); and with
metadata on, any event that dispatch emits carries exactly that previous
value as its `lastEventId`. -/
theorem sse_sticky_lastEventId (o : SOpts) (pOk : List Nat → Bool)
    (st : SSEState) (ls : List (List Nat)) (hm : o.metadata = true)
    (h : ∀ l ∈ ls, sseHasIdField l = false) :
    ((ls.foldl sseProcessLine st).lastId = st.lastId) ∧
    ((sseDispatchEvent o pOk (ls.foldl sseProcessLine st)).1.lastId = st.lastId) ∧
    (∀ ev ∈ (sseDispatchEvent o pOk (ls.foldl sseProcessLine st)).2,
      ev.lastIdOf = some st.lastId) := by
  have hfold := sseFold_lastId ls st h
  refine ⟨hfold, ?_, ?_⟩
  · rw [sseDispatch_lastId, hfold]
  · intro ev hev
    rw [sseDispatch_event_lastId o pOk _ hm ev hev, hfold]

/-- Witness for `sse_sticky_lastEventId`: a block `event: foo` / `data: x`
(no `id:` line) over a state with sticky id `"7"`; metadata is on. -/
theorem sse_sticky_lastEventId_witness :
    (⟨true, true, 64⟩ : SOpts).metadata = true ∧
    (∀ l ∈ [[101, 118, 101, 110, 116, 58, 32, 102],
            [100, 97, 116, 97, 58, 32, 120]], sseHasIdField l = false) ∧
    (((([[101, 118, 101, 110, 116, 58, 32, 102],
        [100, 97, 116, 97, 58, 32, 120]] : List (List Nat)).foldl
          sseProcessLine ⟨[], [], [55]⟩).lastId = [55]) ∧
      ((sseDispatchEvent ⟨true, true, 64⟩ (fun _ => true)
          (([[101, 118, 101, 110, 116, 58, 32, 102],
            [100, 97, 116, 97, 58, 32, 120]] : List (List Nat)).foldl
            sseProcessLine ⟨[], [], [55]⟩)).1.lastId = [55]) ∧
      (∀ ev ∈ (sseDispatchEvent ⟨true, true, 64⟩ (fun _ => true)
          (([[101, 118, 101, 110, 116, 58, 32, 102],
            [100, 97, 116, 97, 58, 32, 120]] : List (List Nat)).foldl
            sseProcessLine ⟨[], [], [55]⟩)).2,
        ev.lastIdOf = some [55])) :=
  ⟨rfl, by decide,
    sse_sticky_lastEventId ⟨true, true, 64⟩ (fun _ => true) ⟨[], [], [55]⟩
      [[101, 118, 101, 110, 116, 58, 32, 102],
       [100, 97, 116, 97, 58, 32, 120]] rfl (by decide)⟩

/-- C10: the SSE `flush` is an empty body — running a stream with the final
flush callback emits exactly the events the per-chunk dispatches emitted,
never more: pending data with no trailing blank line is discarded at end of
stream.  Concretely, the complete line `data: x` with no blank line leaves
`pendingDataLines = ["x"]` buffered and the whole run (flush included) emits
no event. -/
theorem sse_flush_discards (o : SOpts) (pOk : List Nat → Bool)
    (chunks : List (List Nat)) :
    sseRun o pOk chunks true = sseRun o pOk chunks false ∧
    (sseRun ⟨true, true, 64⟩ (fun _ => true)
        [[100, 97, 116, 97, 58, 32, 120, 10]] true).1.2 = [] ∧
    (sseRun ⟨true, true, 64⟩ (fun _ => true)
        [[100, 97, 116, 97, 58, 32, 120, 10]] true).1.1.parts = [[120]] := by
  refine ⟨?_, rfl, rfl⟩
  simp [sseRun, sseFlushStep]

/-! ## The JSON transformer: claim C6 -/

/-- After `terminate()`, a further line never changes the emitted output
(an `enqueue` would throw), and the stream stays terminated. -/
theorem jParseLine_absorb (pOk : List Nat → Bool) (o : JOpts) (c : JCtrl)
    (l : List Nat) (h : c.term = true) :
    (jParseLine pOk o c l).term = true ∧ (jParseLine pOk o c l).out = c.out := by
  unfold jParseLine
  dsimp only
  split
  · exact ⟨h, rfl⟩
  split
  · split
    · exact ⟨rfl, rfl⟩
    · split
      · split
        · unfold jEnqueue
          rw [if_pos h]
          exact ⟨h, rfl⟩
        · exact ⟨h, rfl⟩
      · unfold jEnqueue
        rw [if_pos h]
        exact ⟨h, rfl⟩
  · exact ⟨h, rfl⟩

/-- After `terminate()`, any further block of lines leaves the output
unchanged and the stream terminated. -/
theorem jFold_absorb (pOk : List Nat → Bool) (o : JOpts) (ls : List (List Nat)) :
    ∀ c : JCtrl, c.term = true →
      (ls.foldl (jParseLine pOk o) c).term = true ∧
      (ls.foldl (jParseLine pOk o) c).out = c.out := by
  induction ls with
  | nil => exact fun c h => ⟨h, rfl⟩
  | cons l rest ih =>
    intro c h
    obtain ⟨h1, h2⟩ := jParseLine_absorb pOk o c l h
    obtain ⟨h3, h4⟩ := ih (jParseLine pOk o c l) h1
    exact ⟨h3, by rw [List.foldl_cons, h4, h2]⟩

/-- A list is a `isPrefixOf`-prefix of itself followed by anything. -/
theorem isPrefixOf_append_self (a b : List Nat) : a.isPrefixOf (a ++ b) = true := by
  induction a with
  | nil => simp [List.isPrefixOf]
  | cons x a' ih => simp [List.isPrefixOf, ih]

/-- A data line whose payload is the (trim-invariant) sentinel makes
`parseLine` call `controller.terminate()` and emit nothing. -/
theorem jParseLine_sentinel (pOk : List Nat → Bool) (s : List Nat)
    (parseData : Bool) (cap : Nat) (c : JCtrl) (hs : trimWS s = s) :
    jParseLine pOk ⟨dataPfxDefault, s, parseData, cap⟩ c (dataPfxDefault ++ s) =
      { c with term := true } := by
  unfold jParseLine
  dsimp only
  rw [if_neg (by simp [dataPfxDefault])]
  rw [if_pos (isPrefixOf_append_self _ _)]
  rw [List.drop_left]
  rw [if_pos hs]

/-- C6: the sentinel terminates the stream without emitting it, and nothing
after it is emitted.  For any trim-invariant, LF-free sentinel `s` configured
as `donePrefix` (the default `"[DONE]"` qualifies), any prefix `pre` of
complete lines that does not itself terminate the stream, and any bytes
`post` whatsoever after the sentinel line, running the transformer over
`pre ++ "data: " ++ s ++ "\n" ++ post` (within buffer capacity) emits exactly
the values of `pre` — no value for the sentinel line, no value for `post` —
and ends terminated. -/
theorem jsonTransformer_sentinel (pOk : List Nat → Bool) (s : List Nat)
    (parseData : Bool) (cap : Nat) (pre post : List Nat)
    (hs : trimWS s = s) (hnl : LFB ∉ s)
    (hpre : pre = [] ∨ pre.getLast? = some LFB)
    (hcap : (pre ++ (dataPfxDefault ++ s ++ LFB :: post)).length ≤ cap) :
    (jRun pOk ⟨dataPfxDefault, s, parseData, cap⟩
        [pre ++ (dataPfxDefault ++ s ++ LFB :: post)]).out =
      ((splitAtLF pre).1.foldl
        (jParseLine pOk ⟨dataPfxDefault, s, parseData, cap⟩)
        ⟨[], false, false⟩).out ∧
    (jRun pOk ⟨dataPfxDefault, s, parseData, cap⟩
        [pre ++ (dataPfxDefault ++ s ++ LFB :: post)]).term = true := by
  have hnodp : LFB ∉ dataPfxDefault ++ s := by
    intro hmem
    rcases List.mem_append.mp hmem with hc | hc
    · simp [dataPfxDefault, LFB] at hc
    · exact hnl hc
  have hsplit : splitAtLF (pre ++ (dataPfxDefault ++ s ++ LFB :: post)) =
      ((splitAtLF pre).1 ++ (dataPfxDefault ++ s) :: (splitAtLF post).1,
        (splitAtLF post).2) := by
    rw [splitAtLF_append, splitAtLF_ends_LF pre hpre, List.nil_append]
    rw [show dataPfxDefault ++ s ++ LFB :: post =
        (dataPfxDefault ++ s) ++ LFB :: post from by rw [List.append_assoc]]
    rw [splitAtLF_line _ _ hnodp]
  have hstep : jTransform pOk ⟨dataPfxDefault, s, parseData, cap⟩
      (⟨[], false, false⟩, []) (pre ++ (dataPfxDefault ++ s ++ LFB :: post)) =
      ((splitAtLF (pre ++ (dataPfxDefault ++ s ++ LFB :: post))).1.foldl
          (jParseLine pOk ⟨dataPfxDefault, s, parseData, cap⟩) ⟨[], false, false⟩,
        (splitAtLF (pre ++ (dataPfxDefault ++ s ++ LFB :: post))).2) := by
    unfold jTransform
    rw [if_neg (by simp)]
    rw [if_neg (by
      simp only [List.length_nil, Nat.sub_zero]
      exact Nat.not_lt.mpr hcap)]
    rw [List.nil_append]
    rfl
  have hfold2 : (splitAtLF (pre ++ (dataPfxDefault ++ s ++ LFB :: post))).1.foldl
      (jParseLine pOk ⟨dataPfxDefault, s, parseData, cap⟩) ⟨[], false, false⟩ =
      (splitAtLF post).1.foldl
        (jParseLine pOk ⟨dataPfxDefault, s, parseData, cap⟩)
        { (splitAtLF pre).1.foldl
            (jParseLine pOk ⟨dataPfxDefault, s, parseData, cap⟩)
            ⟨[], false, false⟩ with term := true } := by
    rw [hsplit, List.foldl_append, List.foldl_cons, jParseLine_sentinel _ _ _ _ _ hs]
  obtain ⟨habs_term, habs_out⟩ := jFold_absorb pOk
    ⟨dataPfxDefault, s, parseData, cap⟩ (splitAtLF post).1
    { (splitAtLF pre).1.foldl
        (jParseLine pOk ⟨dataPfxDefault, s, parseData, cap⟩)
        ⟨[], false, false⟩ with term := true } rfl
  unfold jRun
  simp only [List.foldl_cons, List.foldl_nil]
  rw [hstep]
  dsimp only
  rw [hfold2]
  rw [if_pos (Or.inl habs_term)]
  exact ⟨habs_out.trans rfl, habs_term⟩

/-- Witness for `jsonTransformer_sentinel`: default sentinel `"[DONE]"`,
`pre = "data: 1\n"`, `post = "data: 2\n"`, capacity 64: the run emits only
the value of `pre` and ends terminated. -/
theorem jsonTransformer_sentinel_witness :
    trimWS donePfxDefault = donePfxDefault ∧
    LFB ∉ donePfxDefault ∧
    (([100, 97, 116, 97, 58, 32, 49, 10] : List Nat) = [] ∨
      ([100, 97, 116, 97, 58, 32, 49, 10] : List Nat).getLast? = some LFB) ∧
    (([100, 97, 116, 97, 58, 32, 49, 10] : List Nat) ++
        (dataPfxDefault ++ donePfxDefault ++
          LFB :: [100, 97, 116, 97, 58, 32, 50, 10])).length ≤ 64 ∧
    ((jRun (fun _ => true) ⟨dataPfxDefault, donePfxDefault, true, 64⟩
        [[100, 97, 116, 97, 58, 32, 49, 10] ++
          (dataPfxDefault ++ donePfxDefault ++
            LFB :: [100, 97, 116, 97, 58, 32, 50, 10])]).out =
      ((splitAtLF [100, 97, 116, 97, 58, 32, 49, 10]).1.foldl
        (jParseLine (fun _ => true) ⟨dataPfxDefault, donePfxDefault, true, 64⟩)
        ⟨[], false, false⟩).out ∧
      (jRun (fun _ => true) ⟨dataPfxDefault, donePfxDefault, true, 64⟩
        [[100, 97, 116, 97, 58, 32, 49, 10] ++
          (dataPfxDefault ++ donePfxDefault ++
            LFB :: [100, 97, 116, 97, 58, 32, 50, 10])]).term = true) :=
  ⟨by decide, by decide, by decide, by decide,
    jsonTransformer_sentinel (fun _ => true) donePfxDefault true 64
      [100, 97, 116, 97, 58, 32, 49, 10] [100, 97, 116, 97, 58, 32, 50, 10]
      (by decide) (by decide) (by decide) (by decide)⟩
